import Mathlib

/-!
Verification of `contact_evolution.py`: a contact evolution simulation with
audio and visual renderers.  Real numbers are modelled by `ℚ`; the
transcendental helpers `math.hypot` and `math.sin` (and the constant `math.pi`)
are passed in as explicit function/value parameters, so every definition stays
executable.  Python `int()` is truncation toward zero.  Object identity and
in-place mutation (the dataclass `Contact` is mutable and `Snapshot` stores a
tuple of references to the live objects) are modelled by an explicit heap:
a list of `Contact` cells addressed by position.
-/

namespace ContactEvolution

/-- Python `int()` applied to a real value: truncation toward zero. -/
def pyTrunc (q : ℚ) : Int := if 0 ≤ q then ⌊q⌋ else -⌊-q⌋

/-- Python `abs` on a real value. -/
def pabs (a : ℚ) : ℚ := if a < 0 then -a else a

/-- Python `min` on two real values (first argument wins ties). -/
def pmin (a b : ℚ) : ℚ := if b < a then b else a

/-- Python `max` on two real values (first argument wins ties). -/
def pmax (a b : ℚ) : ℚ := if a < b then b else a

/-- The `Contact` dataclass: identifier, position, velocity, affinity. -/
structure Contact where
  identifier : Int
  x : ℚ
  y : ℚ
  vx : ℚ
  vy : ℚ
  affinity : ℚ
  deriving DecidableEq, Inhabited

/-- The `Snapshot` dataclass, value view: time, contact list (in order), energy. -/
structure Snapshot where
  time : ℚ
  contacts : List Contact
  energy : ℚ
  deriving DecidableEq, Inhabited

/-- Engine state of `EvolutionSimulation` (pure value view): the owned contact
list, bounds, damping, elapsed time, and the internal random stream
`self._rng` (created in `__init__` and never consumed by `step`). -/
structure SimState where
  contacts : List Contact
  width : ℚ
  height : ℚ
  damping : ℚ
  time : ℚ
  rng : Nat → ℚ

/-- `EvolutionSimulation._apply_bounds`: reflect a coordinate off the walls. -/
def applyBounds (position velocity maxValue : ℚ) : ℚ × ℚ :=
  if position < 0 then (0, pabs velocity)
  else if position > maxValue then (maxValue, -pabs velocity)
  else (position, velocity)

/-- The force contribution of the ordered pair `(i, j)` in `step`: displacement,
distance `hyp dx dy + 1e-6`, unit direction, mean affinity, inverse-square
influence with the short-range `-1.5` flip.  `hyp` stands for `math.hypot`. -/
def pairTerm (hyp : ℚ → ℚ → ℚ) (cs : List Contact) (i j : Nat) : ℚ × ℚ :=
  let c := cs.getD i default
  let o := cs.getD j default
  let dx := o.x - c.x
  let dy := o.y - c.y
  let distance := hyp dx dy + 1 / 1000000
  let dirx := dx / distance
  let diry := dy / distance
  let affinity := (c.affinity + o.affinity) * (1 / 2)
  let influence := affinity / (distance * distance)
  let influence := if distance < 1 / 5 then influence * (-(3 / 2)) else influence
  (dirx * influence, diry * influence)

/-- One iteration of the inner force loop: add the pair term at index `i` and
subtract it at index `j` in the accumulator. -/
def applyPair (hyp : ℚ → ℚ → ℚ) (cs : List Contact) (f : List (ℚ × ℚ))
    (p : Nat × Nat) : List (ℚ × ℚ) :=
  let t := pairTerm hyp cs p.1 p.2
  let f1 := f.set p.1 (f.getD p.1 (0, 0) + t)
  f1.set p.2 (f1.getD p.2 (0, 0) - t)

/-- The index pairs visited by the nested loops `for i ...: for j in
range(i+1, len(...))`. -/
def pairIndices (n : Nat) : List (Nat × Nat) :=
  (List.range n).flatMap (fun i => (List.range' (i + 1) (n - (i + 1))).map (fun j => (i, j)))

/-- The full force pass of `step`: fold all pairs over the zero-initialized
accumulator `[(0.0, 0.0) for _ in self._contacts]`. -/
def computeForces (hyp : ℚ → ℚ → ℚ) (cs : List Contact) : List (ℚ × ℚ) :=
  (pairIndices cs.length).foldl (applyPair hyp cs) (List.replicate cs.length (0, 0))

/-- The integration body of `step` for one contact: damped velocity update,
position update, then boundary reflection on each axis. -/
def integrate (w h damp dt : ℚ) (c : Contact) (f : ℚ × ℚ) : Contact :=
  let vx := (c.vx + f.1 * dt) * damp
  let vy := (c.vy + f.2 * dt) * damp
  let px := c.x + vx * dt
  let py := c.y + vy * dt
  let xb := applyBounds px vx w
  let yb := applyBounds py vy h
  { identifier := c.identifier, x := xb.1, y := yb.1, vx := xb.2, vy := yb.2,
    affinity := c.affinity }

/-- The integration loop of `step` over `enumerate(self._contacts)`. -/
def integrateAll (w h damp dt : ℚ) (cs : List Contact) (forces : List (ℚ × ℚ)) :
    List Contact :=
  (List.range cs.length).map
    (fun i => integrate w h damp dt (cs.getD i default) (forces.getD i (0, 0)))

/-- `EvolutionSimulation.step`: force pass, integration pass, time advance,
energy as the sum of speeds, returned snapshot plus the successor state. -/
def step (hyp : ℚ → ℚ → ℚ) (dt : ℚ) (s : SimState) : Snapshot × SimState :=
  let forces := computeForces hyp s.contacts
  let cs := integrateAll s.width s.height s.damping dt s.contacts forces
  let t := s.time + dt
  let energy := (cs.map (fun c => hyp c.vx c.vy)).sum
  (⟨t, cs, energy⟩, { s with contacts := cs, time := t })

/-- The snapshot-collection loop of `run_simulation`. -/
def runLoop (hyp : ℚ → ℚ → ℚ) (dt : ℚ) : Nat → SimState → List Snapshot
  | 0, _ => []
  | n + 1, s =>
    let r := step hyp dt s
    r.1 :: runLoop hyp dt n r.2

/-- `run_simulation`: build an engine over the given contacts and step it
`steps` times (`range` of a negative count is empty). -/
def runSimulation (hyp : ℚ → ℚ → ℚ) (steps : Int) (dt : ℚ) (cs : List Contact)
    (w h damp : ℚ) (rng : Nat → ℚ) : List Snapshot :=
  runLoop hyp dt steps.toNat ⟨cs, w, h, damp, 0, rng⟩

/-- Python `random.uniform(a, b)`: `a + (b - a) * random()` with the next
stream draw `u`. -/
def uniform (a b u : ℚ) : ℚ := a + (b - a) * u

/-- `create_contacts`: contact `i` consumes five draws of the seeded stream,
in the order `random(), random(), uniform, uniform, uniform`. -/
def createContacts (stream : Nat → ℚ) (count : Int) : List Contact :=
  (List.range count.toNat).map (fun (i : Nat) =>
    { identifier := Int.ofNat i
      x := stream (5 * i)
      y := stream (5 * i + 1)
      vx := uniform (-(1 / 20)) (1 / 20) (stream (5 * i + 2))
      vy := uniform (-(1 / 20)) (1 / 20) (stream (5 * i + 3))
      affinity := uniform (2 / 5) 1 (stream (5 * i + 4)) })

/-- One audio sample of `generate_audio` for sample index `k` within a
snapshot: per-contact sine accumulation, averaging, loudness envelope,
clamping to `[-1, 1]` and 16-bit quantization.  `sine` stands for `math.sin`
and `piv` for `math.pi`. -/
def sampleValue (sine : ℚ → ℚ) (piv : ℚ) (snap : Snapshot) (sampleRate : ℚ)
    (k : Nat) : Int :=
  let t := (k : ℚ) / sampleRate
  let value := (snap.contacts.map (fun c =>
    let frequency := 220 + 220 * (c.x + c.y) / 2
    let amplitude := pmin 1 c.affinity
    let phase := 2 * piv * frequency * (snap.time + t)
    amplitude * sine phase)).sum
  let value := value / pmax 1 (snap.contacts.length : ℚ)
  let value := value * pmin 1 (2 / 5 + snap.energy)
  pyTrunc (pmax (-1) (pmin 1 value) * 32767)

/-- The sample list accumulated by `generate_audio` before the WAV container
is written: `int(sample_rate * step_duration)` samples per snapshot, in
snapshot order. -/
def generateAudioSamples (sine : ℚ → ℚ) (piv : ℚ) (snaps : List Snapshot)
    (sampleRate stepDuration : ℚ) : List Int :=
  snaps.flatMap (fun snap =>
    let stepSamples := (pyTrunc (sampleRate * stepDuration)).toNat
    (List.range stepSamples).map (sampleValue sine piv snap sampleRate))

/-- An RGB colour triple of `generate_visual_frames`. -/
abbrev Color := Int × Int × Int

/-- `_color_for_contact`: intensity from affinity, green/blue channels from
position. -/
def colorFor (c : Contact) : Color :=
  (pyTrunc (80 + 175 * pmin 1 c.affinity),
   pyTrunc (60 + 195 * c.x),
   pyTrunc (60 + 195 * c.y))

/-- The background colour of each frame. -/
def bgColor : Color := (12, 12, 24)

/-- Clamp of a pixel index into `[0, m - 1]`, the `min(m - 1, max(0, v))`
pattern of `generate_visual_frames`. -/
def clampPix (v m : Int) : Int := min (m - 1) (max 0 v)

/-- The target pixel column of a contact: `min(width-1, max(0,
int(contact.x * (width - 1))))`.  Python `int()` truncates toward zero. -/
def targetPx (c : Contact) (w : Int) : Int :=
  clampPix (pyTrunc (c.x * ((w : ℚ) - 1))) w

/-- The target pixel row of a contact, analogous with the frame height. -/
def targetPy (c : Contact) (h : Int) : Int :=
  clampPix (pyTrunc (c.y * ((h : ℚ) - 1))) h

/-- `pixels[y][x] = color` on the row-major grid. -/
def setPix (g : List (List Color)) (px py : Int) (col : Color) :
    List (List Color) :=
  g.set py.toNat ((g.getD py.toNat []).set px.toNat col)

/-- Read `pixels[y][x]` from the row-major grid. -/
def pixAt (g : List (List Color)) (px py : Int) : Color :=
  (g.getD py.toNat []).getD px.toNat bgColor

/-- The per-contact drawing step of `generate_visual_frames`: the target
pixel and, for `offset in (-1, 1)`, the clamped diagonal neighbours, all set
to the contact's colour. -/
def drawContact (w h : Int) (g : List (List Color)) (c : Contact) :
    List (List Color) :=
  setPix
    (setPix
      (setPix g (targetPx c w) (targetPy c h) (colorFor c))
      (clampPix (targetPx c w - 1) w) (clampPix (targetPy c h - 1) h) (colorFor c))
    (clampPix (targetPx c w + 1) w) (clampPix (targetPy c h + 1) h) (colorFor c)

/-- One frame of `generate_visual_frames`: background-initialized grid, then
each contact drawn in list order. -/
def renderFrame (cs : List Contact) (w h : Int) : List (List Color) :=
  cs.foldl (drawContact w h)
    (List.replicate h.toNat (List.replicate w.toNat bgColor))

/-- The three pixel coordinates a contact marks: its target pixel and the two
clamped diagonal neighbours. -/
def markSet (c : Contact) (w h : Int) : List (Int × Int) :=
  let px := targetPx c w
  let py := targetPy c h
  [(px, py), (clampPix (px - 1) w, clampPix (py - 1) h),
   (clampPix (px + 1) w, clampPix (py + 1) h)]

/-- Declarative reading of one frame: a pixel shows the colour of the last
contact in the snapshot's order that marks it, else the background. -/
def specPixel (cs : List Contact) (w h : Int) (p : Int × Int) : Color :=
  cs.foldl (fun acc c => if p ∈ markSet c w h then colorFor c else acc) bgColor

/-- Target pixel column as the claim words it, with rounding instead of
Python truncation; kept for comparison with `targetPx`. -/
def targetPxClaim (c : Contact) (w : Int) : Int :=
  clampPix (round (c.x * ((w : ℚ) - 1))) w

/-- Target pixel row as the claim words it, with rounding. -/
def targetPyClaim (c : Contact) (h : Int) : Int :=
  clampPix (round (c.y * ((h : ℚ) - 1))) h

/-- Mark set as the claim words it, built from the rounded target pixel. -/
def markSetClaim (c : Contact) (w h : Int) : List (Int × Int) :=
  let px := targetPxClaim c w
  let py := targetPyClaim c h
  [(px, py), (clampPix (px - 1) w, clampPix (py - 1) h),
   (clampPix (px + 1) w, clampPix (py + 1) h)]

/-- Declarative frame reading under the claim's rounded pixel mapping. -/
def specPixelClaim (cs : List Contact) (w h : Int) (p : Int × Int) : Color :=
  cs.foldl (fun acc c => if p ∈ markSetClaim c w h then colorFor c else acc)
    bgColor

/-- Engine state in the heap model: addresses of the owned contact cells plus
the scalar configuration. -/
structure EngineH where
  refs : List Nat
  width : ℚ
  height : ℚ
  damping : ℚ
  time : ℚ
  deriving DecidableEq

/-- A snapshot in the heap model: `tuple(self._contacts)` stores references
to the live contact cells, not copies, so the snapshot holds addresses. -/
structure SnapshotH where
  time : ℚ
  contactRefs : List Nat
  energy : ℚ
  deriving DecidableEq

/-- `EvolutionSimulation.__init__` in the heap model: allocate a fresh cell
`Contact(**contact.__dict__)` for each input address, at the end of the heap. -/
def initEngine (heap : List Contact) (inputRefs : List Nat) (w h damp : ℚ) :
    List Contact × EngineH :=
  (heap ++ inputRefs.map (fun r => heap.getD r default),
   ⟨List.range' heap.length inputRefs.length, w, h, damp, 0⟩)

/-- `EvolutionSimulation.step` in the heap model: read the owned cells,
run the pure force/integration passes, write the results back in place, and
return a snapshot holding the same addresses. -/
def stepHeap (hyp : ℚ → ℚ → ℚ) (dt : ℚ) (st : List Contact × EngineH) :
    (List Contact × EngineH) × SnapshotH :=
  let heap := st.1
  let e := st.2
  let cs := e.refs.map (fun r => heap.getD r default)
  let forces := computeForces hyp cs
  let cs2 := integrateAll e.width e.height e.damping dt cs forces
  let heap2 := (e.refs.zip cs2).foldl (fun acc rc => acc.set rc.1 rc.2) heap
  let t := e.time + dt
  let energy := (cs2.map (fun c => hyp c.vx c.vy)).sum
  ((heap2, { e with time := t }), ⟨t, e.refs, energy⟩)

/-- Iterate `stepHeap`, keeping only the final heap and engine. -/
def iterateStepHeap (hyp : ℚ → ℚ → ℚ) (dt : ℚ) :
    Nat → List Contact × EngineH → List Contact × EngineH
  | 0, st => st
  | n + 1, st => iterateStepHeap hyp dt n (stepHeap hyp dt st).1

/-- Dereference a heap snapshot: the contact values a holder of the snapshot
observes in the current heap. -/
def observe (heap : List Contact) (s : SnapshotH) : List Contact :=
  s.contactRefs.map (fun r => heap.getD r default)

/-- The contribution of the loop iteration for pair `p` to the accumulator
slot `k`: the pair term if `k` is the first index, its negation if `k` is the
second. -/
def contribAt (hyp : ℚ → ℚ → ℚ) (cs : List Contact) (k : Nat) (p : Nat × Nat) :
    ℚ × ℚ :=
  (if p.1 = k then pairTerm hyp cs p.1 p.2 else 0) +
    (if p.2 = k then -pairTerm hyp cs p.1 p.2 else 0)

/-- Well-formedness of a pixel grid: `h` rows each of width `w`. -/
def gridWF (g : List (List Color)) (w h : Int) : Prop :=
  g.length = h.toNat ∧ ∀ i : Nat, i < h.toNat → (g.getD i []).length = w.toNat

/-- A concrete contact whose scaled coordinate `0.75 * 2 = 1.5` separates
rounding from Python truncation. -/
def cHalfway : Contact := ⟨0, 3 / 4, 3 / 4, 0, 0, 1⟩

/-- A concrete hypot stand-in, exact whenever one displacement is zero. -/
def hypAbsSum : ℚ → ℚ → ℚ := fun a b => pabs a + pabs b

/-- A concrete contact for the aliasing run: drifting right at speed 0.1. -/
def cDrift : Contact := ⟨0, 1 / 2, 1 / 2, 1 / 10, 0, 1 / 2⟩

/-- Heap and engine after constructing `EvolutionSimulation([cDrift])` over a
one-cell caller heap. -/
def aliasStart : List Contact × EngineH := initEngine [cDrift] [0] 1 1 (49 / 50)

/-- State and snapshot after the first `step(0.02)` of the aliasing run. -/
def aliasRun1 : (List Contact × EngineH) × SnapshotH :=
  stepHeap hypAbsSum (1 / 50) aliasStart

/-- State and snapshot after the second `step(0.02)` of the aliasing run. -/
def aliasRun2 : (List Contact × EngineH) × SnapshotH :=
  stepHeap hypAbsSum (1 / 50) aliasRun1.1

/-- Invariant of the heap model runs: the heap never shrinks below the
caller's cells, the engine only owns freshly allocated addresses, and every
caller cell still holds its original contact value. -/
def heapPrefixInv (h0 : List Contact) (st : List Contact × EngineH) : Prop :=
  h0.length ≤ st.1.length ∧ (∀ a ∈ st.2.refs, h0.length ≤ a) ∧
    ∀ r : Nat, r < h0.length → st.1.getD r default = h0.getD r default

/-! ### Generic list and helper lemmas -/

theorem pabs_eq_abs (a : ℚ) : pabs a = |a| := by
  unfold pabs
  split
  · exact (abs_of_neg (by assumption)).symm
  · exact (abs_of_nonneg (not_lt.mp (by assumption))).symm

theorem getD_set_self {α : Type} (l : List α) (i : Nat) (a d : α)
    (h : i < l.length) : (l.set i a).getD i d = a := by
  simp [List.getD_eq_getElem?_getD, List.getElem?_set_self h]

theorem getD_set_ne {α : Type} (l : List α) {i j : Nat} (a d : α) (h : i ≠ j) :
    (l.set i a).getD j d = l.getD j d := by
  simp [List.getD_eq_getElem?_getD, List.getElem?_set_ne h]

theorem applyBounds_fst_mem {p v m : ℚ} (hm : 0 ≤ m) :
    0 ≤ (applyBounds p v m).1 ∧ (applyBounds p v m).1 ≤ m := by
  unfold applyBounds
  split_ifs with h1 h2
  · exact ⟨le_refl 0, hm⟩
  · exact ⟨hm, le_refl m⟩
  · exact ⟨not_lt.mp h1, not_lt.mp h2⟩

theorem integrateAll_length (w h damp dt : ℚ) (cs : List Contact)
    (forces : List (ℚ × ℚ)) : (integrateAll w h damp dt cs forces).length = cs.length := by
  simp [integrateAll]

/-! ### Claim theorems -/

/-- Claim C5: boundary reflection acts independently per axis; below zero the
position clamps to 0 and the velocity becomes its absolute value, above the
axis maximum it clamps to the maximum with velocity the negative absolute
value, and otherwise both are unchanged; in particular `x = -0.01`,
`vx = -0.3` yields `x = 0`, `vx = +0.3`. -/
theorem applyBounds_cases (p v m : ℚ) :
    (p < 0 → applyBounds p v m = (0, |v|)) ∧
    (0 ≤ p → m < p → applyBounds p v m = (m, -|v|)) ∧
    (0 ≤ p → p ≤ m → applyBounds p v m = (p, v)) ∧
    applyBounds (-(1 / 100)) (-(3 / 10)) 1 = (0, 3 / 10) := by
  refine ⟨fun h1 => ?_, fun h1 h2 => ?_, fun h1 h2 => ?_, ?_⟩
  · simp [applyBounds, h1, pabs_eq_abs]
  · simp [applyBounds, not_lt.mpr h1, h2, pabs_eq_abs]
  · simp [applyBounds, not_lt.mpr h1, not_lt.mpr h2]
  · norm_num [applyBounds, pabs]

/-- Witness for C5: each case of `applyBounds_cases` applied at concrete
inputs. -/
theorem applyBounds_cases_witness :
    ((-1 : ℚ) < 0 ∧ applyBounds (-1) 5 2 = (0, |(5 : ℚ)|)) ∧
    ((0 : ℚ) ≤ 3 ∧ (2 : ℚ) < 3 ∧ applyBounds 3 5 2 = (2, -|(5 : ℚ)|)) ∧
    ((0 : ℚ) ≤ 1 ∧ (1 : ℚ) ≤ 2 ∧ applyBounds 1 5 2 = (1, 5)) :=
  ⟨⟨by norm_num, (applyBounds_cases (-1) 5 2).1 (by norm_num)⟩,
   ⟨by norm_num, by norm_num, (applyBounds_cases 3 5 2).2.1 (by norm_num) (by norm_num)⟩,
   ⟨by norm_num, by norm_num, (applyBounds_cases 1 5 2).2.2.1 (by norm_num) (by norm_num)⟩⟩

/-- Counterexample to claim C3: no `InvalidInput` failure exists anywhere in
the code; a negative count yields an empty contact list, a negative step
count yields an empty snapshot list, and a non-positive `dt` is accepted and
advances the simulation time. -/
theorem no_invalid_input_cex :
    createContacts (fun _ => 0) (-1) = [] ∧
    runSimulation (fun _ _ => 0) (-3) (1 / 50) [] 1 1 (49 / 50) (fun _ => 0) = [] ∧
    (step (fun _ _ => 0) (-(1 / 50)) ⟨[], 1, 1, 49 / 50, 0, fun _ => 0⟩).2.time
      = -(1 / 50) := by
  refine ⟨?_, ?_, ?_⟩
  · simp [createContacts]
  · simp [runSimulation, runLoop]
  · simp [step]

/-- Claim C3 as amended: the code performs no input validation at all.
`create_contacts` returns an empty list for every negative count,
`run_simulation` returns an empty snapshot list for every negative step
count, and `step` accepts every non-positive `dt`, advancing time by `dt`
and returning a snapshot (time shown both on the successor state and on
the returned snapshot). -/
theorem no_validation (stream : Nat → ℚ) (n steps : Int) (hyp : ℚ → ℚ → ℚ)
    (dt : ℚ) (cs : List Contact) (w h damp : ℚ) (rng : Nat → ℚ) (s : SimState)
    (hn : n < 0) (hs : steps < 0) (hdt : dt ≤ 0) :
    createContacts stream n = [] ∧
    runSimulation hyp steps dt cs w h damp rng = [] ∧
    (step hyp dt s).2.time = s.time + dt ∧ (step hyp dt s).1.time = s.time + dt := by
  refine ⟨?_, ?_, ?_, ?_⟩
  · simp [createContacts, Int.toNat_of_nonpos (le_of_lt hn)]
  · simp [runSimulation, Int.toNat_of_nonpos (le_of_lt hs), runLoop]
  · simp [step]
  · simp [step]

/-- Witness for C3's amended statement at concrete inputs. -/
theorem no_validation_witness :
    ((-1 : Int) < 0) ∧ ((-2 : Int) < 0) ∧ ((-(1 / 50) : ℚ) ≤ 0) ∧
    (createContacts (fun _ => 0) (-1) = [] ∧
     runSimulation (fun _ _ => 0) (-2) (-(1 / 50)) [] 1 1 (49 / 50) (fun _ => 0) = [] ∧
     (step (fun _ _ => 0) (-(1 / 50)) ⟨[], 1, 1, 49 / 50, 0, fun _ => 0⟩).2.time
        = (⟨[], 1, 1, 49 / 50, 0, fun _ => 0⟩ : SimState).time + -(1 / 50) ∧
     (step (fun _ _ => 0) (-(1 / 50)) ⟨[], 1, 1, 49 / 50, 0, fun _ => 0⟩).1.time
        = (⟨[], 1, 1, 49 / 50, 0, fun _ => 0⟩ : SimState).time + -(1 / 50)) :=
  ⟨by norm_num, by norm_num, by norm_num,
   no_validation (fun _ => 0) (-1) (-2) (fun _ _ => 0) (-(1 / 50)) [] 1 1 (49 / 50)
     (fun _ => 0) ⟨[], 1, 1, 49 / 50, 0, fun _ => 0⟩
     (by norm_num) (by norm_num) (by norm_num)⟩

theorem runLoop_rng_irrelevant (hyp : ℚ → ℚ → ℚ) (dt : ℚ) :
    ∀ (n : Nat) (cs : List Contact) (w h damp t : ℚ) (r1 r2 : Nat → ℚ),
      runLoop hyp dt n ⟨cs, w, h, damp, t, r1⟩ = runLoop hyp dt n ⟨cs, w, h, damp, t, r2⟩ := by
  intro n
  induction n with
  | zero => intro cs w h damp t r1 r2; rfl
  | succ m ih =>
    intro cs w h damp t r1 r2
    simp only [runLoop, step]
    exact congrArg _ (ih _ _ _ _ _ r1 r2)

/-- Claim C6: the whole pipeline is deterministic.  `create_contacts` is a
function of the seed's derived random stream, and the engine built by
`run_simulation` never consumes its own internal random source (which is
unseeded, `random.Random(None)`), so two runs with the same seed, steps,
`dt` and contact count observe identical snapshot sequences even when the
engines' internal random streams differ. -/
theorem run_twice_identical (hyp : ℚ → ℚ → ℚ) (seedStream : Int → Nat → ℚ)
    (seed : Int) (count steps : Int) (dt w h damp : ℚ) (rng1 rng2 : Nat → ℚ) :
    runSimulation hyp steps dt (createContacts (seedStream seed) count) w h damp rng1
      = runSimulation hyp steps dt (createContacts (seedStream seed) count) w h damp rng2 :=
  runLoop_rng_irrelevant hyp dt steps.toNat _ w h damp 0 rng1 rng2

/-- Claim C2: with positive bounds and positive `dt`, one `step` preserves
the number of contacts and leaves every contact's position inside
`[0, width] × [0, height]`. -/
theorem step_count_and_bounds (hyp : ℚ → ℚ → ℚ) (dt : ℚ) (s : SimState)
    (hw : 0 < s.width) (hh : 0 < s.height) (hdt : 0 < dt) :
    (step hyp dt s).2.contacts.length = s.contacts.length ∧
    ∀ c ∈ (step hyp dt s).2.contacts,
      0 ≤ c.x ∧ c.x ≤ s.width ∧ 0 ≤ c.y ∧ c.y ≤ s.height := by
  constructor
  · simp [step, integrateAll_length]
  · intro c hc
    simp only [step, integrateAll, List.mem_map, List.mem_range] at hc
    obtain ⟨i, _, rfl⟩ := hc
    have hx := applyBounds_fst_mem (p :=
      (s.contacts.getD i default).x +
        ((s.contacts.getD i default).vx +
            ((computeForces hyp s.contacts).getD i (0, 0)).1 * dt) * s.damping * dt)
      (v := ((s.contacts.getD i default).vx +
            ((computeForces hyp s.contacts).getD i (0, 0)).1 * dt) * s.damping)
      (le_of_lt hw)
    have hy := applyBounds_fst_mem (p :=
      (s.contacts.getD i default).y +
        ((s.contacts.getD i default).vy +
            ((computeForces hyp s.contacts).getD i (0, 0)).2 * dt) * s.damping * dt)
      (v := ((s.contacts.getD i default).vy +
            ((computeForces hyp s.contacts).getD i (0, 0)).2 * dt) * s.damping)
      (le_of_lt hh)
    exact ⟨hx.1, hx.2, hy.1, hy.2⟩

/-- Witness for C2 on a one-contact engine with unit bounds. -/
theorem step_count_and_bounds_witness :
    (0 : ℚ) < 1 ∧ (0 : ℚ) < 1 ∧ (0 : ℚ) < 1 / 50 ∧
    ((step (fun _ _ => 0) (1 / 50)
        ⟨[⟨0, 1 / 2, 1 / 2, 1 / 10, 0, 1 / 2⟩], 1, 1, 49 / 50, 0, fun _ => 0⟩).2.contacts.length
      = (⟨[⟨0, 1 / 2, 1 / 2, 1 / 10, 0, 1 / 2⟩], 1, 1, 49 / 50, 0, fun _ => 0⟩ : SimState).contacts.length ∧
     ∀ c ∈ (step (fun _ _ => 0) (1 / 50)
        ⟨[⟨0, 1 / 2, 1 / 2, 1 / 10, 0, 1 / 2⟩], 1, 1, 49 / 50, 0, fun _ => 0⟩).2.contacts,
        0 ≤ c.x ∧ c.x ≤ (⟨[⟨0, 1 / 2, 1 / 2, 1 / 10, 0, 1 / 2⟩], 1, 1, 49 / 50, 0, fun _ => 0⟩ : SimState).width ∧
        0 ≤ c.y ∧ c.y ≤ (⟨[⟨0, 1 / 2, 1 / 2, 1 / 10, 0, 1 / 2⟩], 1, 1, 49 / 50, 0, fun _ => 0⟩ : SimState).height) :=
  ⟨by norm_num, by norm_num, by norm_num,
   step_count_and_bounds (fun _ _ => 0) (1 / 50)
     ⟨[⟨0, 1 / 2, 1 / 2, 1 / 10, 0, 1 / 2⟩], 1, 1, 49 / 50, 0, fun _ => 0⟩
     (by norm_num) (by norm_num) (by norm_num)⟩

theorem applyPair_length (hyp : ℚ → ℚ → ℚ) (cs : List Contact)
    (f : List (ℚ × ℚ)) (p : Nat × Nat) : (applyPair hyp cs f p).length = f.length := by
  simp [applyPair]

theorem applyPair_getD (hyp : ℚ → ℚ → ℚ) (cs : List Contact) (f : List (ℚ × ℚ))
    (p : Nat × Nat) (k : Nat) (hp1 : p.1 < f.length) (hp2 : p.2 < f.length)
    (hk : k < f.length) :
    (applyPair hyp cs f p).getD k (0, 0) = f.getD k (0, 0) + contribAt hyp cs k p := by
  unfold applyPair contribAt
  by_cases h2 : p.2 = k
  · subst h2
    rw [getD_set_self _ _ _ _ (by simpa using hp2)]
    by_cases h1 : p.1 = p.2
    · rw [h1, getD_set_self _ _ _ _ hp2]
      simp [h1]
    · rw [getD_set_ne _ _ _ h1]
      simp [h1, sub_eq_add_neg]
  · rw [getD_set_ne _ _ _ h2]
    by_cases h1 : p.1 = k
    · subst h1
      rw [getD_set_self _ _ _ _ hp1]
      simp [h2]
    · rw [getD_set_ne _ _ _ h1]
      simp [h1, h2]

theorem foldl_applyPair_length (hyp : ℚ → ℚ → ℚ) (cs : List Contact) :
    ∀ (ps : List (Nat × Nat)) (f : List (ℚ × ℚ)),
      (ps.foldl (applyPair hyp cs) f).length = f.length := by
  intro ps
  induction ps with
  | nil => intro f; rfl
  | cons p ps ih =>
    intro f
    rw [List.foldl_cons, ih, applyPair_length]

theorem foldl_applyPair_getD (hyp : ℚ → ℚ → ℚ) (cs : List Contact) (k : Nat) :
    ∀ (ps : List (Nat × Nat)) (f : List (ℚ × ℚ)),
      (∀ p ∈ ps, p.1 < f.length ∧ p.2 < f.length) → k < f.length →
      (ps.foldl (applyPair hyp cs) f).getD k (0, 0)
        = f.getD k (0, 0) + (ps.map (contribAt hyp cs k)).sum := by
  intro ps
  induction ps with
  | nil => intro f _ _; simp
  | cons p ps ih =>
    intro f hmem hk
    have hp := hmem p (List.mem_cons_self p ps)
    have hlen := applyPair_length hyp cs f p
    rw [List.foldl_cons,
      ih (applyPair hyp cs f p)
        (fun q hq => hlen ▸ hmem q (List.mem_cons_of_mem p hq)) (hlen ▸ hk),
      applyPair_getD hyp cs f p k hp.1 hp.2 hk]
    simp [add_assoc]

theorem mem_pairIndices {n : Nat} {p : Nat × Nat} (h : p ∈ pairIndices n) :
    p.1 < p.2 ∧ p.2 < n := by
  simp only [pairIndices, List.mem_flatMap, List.mem_map, List.mem_range] at h
  obtain ⟨i, hi, j, hj, rfl⟩ := h
  have := List.mem_range'.1 hj
  obtain ⟨m, hm, rfl⟩ := this
  omega

theorem computeForces_length (hyp : ℚ → ℚ → ℚ) (cs : List Contact) :
    (computeForces hyp cs).length = cs.length := by
  unfold computeForces
  rw [foldl_applyPair_length, List.length_replicate]

theorem getD_replicate {α : Type} (n k : Nat) (a d : α) (h : k < n) :
    (List.replicate n a).getD k d = a := by
  simp [List.getD_eq_getElem?_getD, List.getElem?_replicate, h]

/-- Claim C4: the force accumulator built by the nested pair loops is sized
to the contact count and, at every index `k`, equals the sum over all visited
unordered pairs of the pairwise contribution: the unit-direction-times-
influence term (with the `-1.5` short-range flip) on the first index of the
pair and its exact negation on the second, accumulated from zero. -/
theorem forces_pairwise (hyp : ℚ → ℚ → ℚ) (cs : List Contact) (k : Nat)
    (hk : k < cs.length) :
    (computeForces hyp cs).length = cs.length ∧
    (computeForces hyp cs).getD k (0, 0)
      = ((pairIndices cs.length).map (contribAt hyp cs k)).sum := by
  refine ⟨computeForces_length hyp cs, ?_⟩
  unfold computeForces
  rw [foldl_applyPair_getD hyp cs k (pairIndices cs.length)
      (List.replicate cs.length (0, 0))
      (fun p hp => by
        have := mem_pairIndices hp
        simp only [List.length_replicate]
        omega)
      (by simpa using hk),
    getD_replicate _ _ _ _ hk, Prod.mk_zero_zero, zero_add]

/-- Witness for C4 on two concrete contacts at unit distance. -/
theorem forces_pairwise_witness :
    (0 < ([⟨0, 0, 0, 0, 0, 1⟩, ⟨1, 1, 0, 0, 0, 1⟩] : List Contact).length) ∧
    ((computeForces (fun _ _ => 1) [⟨0, 0, 0, 0, 0, 1⟩, ⟨1, 1, 0, 0, 0, 1⟩]).length
        = ([⟨0, 0, 0, 0, 0, 1⟩, ⟨1, 1, 0, 0, 0, 1⟩] : List Contact).length ∧
      (computeForces (fun _ _ => 1) [⟨0, 0, 0, 0, 0, 1⟩, ⟨1, 1, 0, 0, 0, 1⟩]).getD 0 (0, 0)
        = ((pairIndices ([⟨0, 0, 0, 0, 0, 1⟩, ⟨1, 1, 0, 0, 0, 1⟩] : List Contact).length).map
            (contribAt (fun _ _ => 1) [⟨0, 0, 0, 0, 0, 1⟩, ⟨1, 1, 0, 0, 0, 1⟩] 0)).sum) :=
  ⟨by norm_num,
   forces_pairwise (fun _ _ => 1) [⟨0, 0, 0, 0, 0, 1⟩, ⟨1, 1, 0, 0, 0, 1⟩] 0 (by norm_num)⟩

theorem generateAudioSamples_length (sine : ℚ → ℚ) (piv : ℚ)
    (snaps : List Snapshot) (rate dur : ℚ) :
    (generateAudioSamples sine piv snaps rate dur).length
      = snaps.length * (pyTrunc (rate * dur)).toNat := by
  unfold generateAudioSamples
  induction snaps with
  | nil => simp
  | cons s ss ih =>
    simp only [List.flatMap_cons, List.length_append, ih, List.length_map,
      List.length_range, List.length_cons]
    ring

theorem pyTrunc_nonneg {q : ℚ} (h : 0 ≤ q) : 0 ≤ pyTrunc q := by
  unfold pyTrunc
  rw [if_pos h]
  exact Int.floor_nonneg.mpr h

/-- Claim C7: `generate_audio` emits exactly `int(sample_rate *
step_duration)` samples per snapshot, hence `S * int(sample_rate *
step_duration)` in total, and with the default `sample_rate = 44100`,
`step_duration = 0.1` exactly `S * 4410` samples. -/
theorem audio_sample_count (sine : ℚ → ℚ) (piv : ℚ) (snaps : List Snapshot)
    (rate dur : ℚ) (h : 0 ≤ rate * dur) :
    ((generateAudioSamples sine piv snaps rate dur).length : Int)
        = snaps.length * pyTrunc (rate * dur) ∧
    (generateAudioSamples sine piv snaps 44100 (1 / 10)).length
        = snaps.length * 4410 := by
  constructor
  · rw [generateAudioSamples_length]
    push_cast [Int.toNat_of_nonneg (pyTrunc_nonneg h)]
    ring
  · rw [generateAudioSamples_length]
    have h4410 : pyTrunc (44100 * (1 / 10)) = 4410 := by norm_num [pyTrunc]
    rw [h4410]
    rfl

/-- Witness for C7 with two empty snapshots at the default rates. -/
theorem audio_sample_count_witness :
    ((0 : ℚ) ≤ 44100 * (1 / 10)) ∧
    (((generateAudioSamples (fun _ => 0) 0 [⟨0, [], 0⟩, ⟨1, [], 0⟩] 44100 (1 / 10)).length : Int)
        = ([⟨0, [], 0⟩, ⟨1, [], 0⟩] : List Snapshot).length * pyTrunc (44100 * (1 / 10)) ∧
     (generateAudioSamples (fun _ => 0) 0 [⟨0, [], 0⟩, ⟨1, [], 0⟩] 44100 (1 / 10)).length
        = ([⟨0, [], 0⟩, ⟨1, [], 0⟩] : List Snapshot).length * 4410) :=
  ⟨by norm_num,
   audio_sample_count (fun _ => 0) 0 [⟨0, [], 0⟩, ⟨1, [], 0⟩] 44100 (1 / 10) (by norm_num)⟩

theorem pmin_le_left (a b : ℚ) : pmin a b ≤ a := by
  unfold pmin
  split
  · exact le_of_lt (by assumption)
  · exact le_refl a

theorem le_pmax_left (a b : ℚ) : a ≤ pmax a b := by
  unfold pmax
  split
  · exact le_of_lt (by assumption)
  · exact le_refl a

theorem pmax_le {a b c : ℚ} (h1 : a ≤ c) (h2 : b ≤ c) : pmax a b ≤ c := by
  unfold pmax
  split <;> assumption

theorem pyTrunc_bound_of_bound {q : ℚ} {B : Int} (hB : 0 ≤ B)
    (h1 : -(B : ℚ) ≤ q) (h2 : q ≤ (B : ℚ)) :
    -B ≤ pyTrunc q ∧ pyTrunc q ≤ B := by
  unfold pyTrunc
  split
  · constructor
    · exact le_trans (by omega) (Int.floor_nonneg.mpr (by assumption))
    · calc ⌊q⌋ ≤ ⌊(B : ℚ)⌋ := Int.floor_le_floor h2
        _ = B := Int.floor_intCast B
  · have hq : q < 0 := not_le.mp (by assumption)
    constructor
    · have : ⌊-q⌋ ≤ ⌊(B : ℚ)⌋ := Int.floor_le_floor (by linarith)
      rw [Int.floor_intCast] at this
      omega
    · have : (0 : Int) ≤ ⌊-q⌋ := Int.floor_nonneg.mpr (by linarith)
      omega

/-- Claim C10: every sample emitted by `generate_audio` lies in
`[-32767, 32767]`, because the accumulated value is clamped to `[-1, 1]`
before the multiplication by 32767 and the truncation toward zero, so the
16-bit PCM packing can never overflow. -/
theorem audio_samples_in_range (sine : ℚ → ℚ) (piv : ℚ) (snaps : List Snapshot)
    (rate dur : ℚ) :
    ∀ s ∈ generateAudioSamples sine piv snaps rate dur,
      -32767 ≤ s ∧ s ≤ 32767 := by
  intro s hs
  simp only [generateAudioSamples, List.mem_flatMap, List.mem_map,
    List.mem_range] at hs
  obtain ⟨snap, _, k, _, rfl⟩ := hs
  unfold sampleValue
  set v := ((snap.contacts.map (fun c =>
    pmin 1 c.affinity *
      sine (2 * piv * (220 + 220 * (c.x + c.y) / 2) * (snap.time + (k : ℚ) / rate)))).sum
      / pmax 1 (snap.contacts.length : ℚ)) * pmin 1 (2 / 5 + snap.energy) with hv
  have hlo : -1 ≤ pmax (-1) (pmin 1 v) := le_pmax_left (-1) (pmin 1 v)
  have hhi : pmax (-1) (pmin 1 v) ≤ 1 :=
    pmax_le (by norm_num) (pmin_le_left 1 v)
  have := pyTrunc_bound_of_bound (q := pmax (-1) (pmin 1 v) * 32767)
    (B := 32767) (by norm_num) (by push_cast; nlinarith) (by push_cast; nlinarith)
  exact this

/-- Witness for C10: the single sample produced by an empty snapshot at unit
rate is in range. -/
theorem audio_samples_in_range_witness :
    (0 ∈ generateAudioSamples (fun _ => 0) 0 [⟨0, [], 0⟩] 1 1) ∧
    ((-32767 : Int) ≤ 0 ∧ (0 : Int) ≤ 32767) :=
  ⟨by norm_num [generateAudioSamples, pyTrunc, sampleValue, pmin, pmax,
      List.range, List.range.loop],
   audio_samples_in_range (fun _ => 0) 0 [⟨0, [], 0⟩] 1 1 0
     (by norm_num [generateAudioSamples, pyTrunc, sampleValue, pmin, pmax,
        List.range, List.range.loop])⟩

theorem clampPix_mem (v m : Int) (hm : 1 ≤ m) :
    0 ≤ clampPix v m ∧ clampPix v m < m := by
  unfold clampPix
  rw [min_def, max_def]
  split_ifs <;> omega

theorem setPix_wf {g : List (List Color)} {w h : Int} (a b : Int) (col : Color)
    (hg : gridWF g w h) (hb1 : 0 ≤ b) (hb2 : b < h) :
    gridWF (setPix g a b col) w h := by
  obtain ⟨hlen, hrow⟩ := hg
  refine ⟨by simp [setPix, hlen], ?_⟩
  intro i hi
  by_cases hib : b.toNat = i
  · subst hib
    rw [setPix, getD_set_self _ _ _ _ (by omega)]
    rw [List.length_set]
    exact hrow b.toNat (by omega)
  · rw [setPix, getD_set_ne _ _ _ hib]
    exact hrow i hi

theorem pixAt_setPix {g : List (List Color)} {w h : Int} (col : Color)
    (a b x y : Int) (hg : gridWF g w h)
    (ha1 : 0 ≤ a) (ha2 : a < w) (hb1 : 0 ≤ b) (hb2 : b < h)
    (hx1 : 0 ≤ x) (hx2 : x < w) (hy1 : 0 ≤ y) (hy2 : y < h) :
    pixAt (setPix g a b col) x y = if a = x ∧ b = y then col else pixAt g x y := by
  obtain ⟨hlen, hrow⟩ := hg
  have hrowb := hrow b.toNat (by omega)
  by_cases hby : b = y
  · subst hby
    rw [pixAt, setPix, getD_set_self _ _ _ _ (by omega)]
    by_cases hax : a = x
    · subst hax
      rw [getD_set_self _ _ _ _ (by omega)]
      simp
    · rw [getD_set_ne _ _ _ (by omega : a.toNat ≠ x.toNat)]
      simp [hax, pixAt]
  · rw [pixAt, setPix, getD_set_ne _ _ _ (by omega : b.toNat ≠ y.toNat)]
    simp [hby, pixAt]

theorem drawContact_wf {g : List (List Color)} {w h : Int} (c : Contact)
    (hw : 1 ≤ w) (hh : 1 ≤ h) (hg : gridWF g w h) :
    gridWF (drawContact w h g c) w h := by
  unfold drawContact
  have h1 := clampPix_mem (targetPy c h - 1) h hh
  have h2 := clampPix_mem (targetPy c h + 1) h hh
  have h3 : 0 ≤ targetPy c h ∧ targetPy c h < h := clampPix_mem _ h hh
  exact setPix_wf _ _ _
    (setPix_wf _ _ _ (setPix_wf _ _ _ hg h3.1 h3.2) h1.1 h1.2) h2.1 h2.2

theorem pixAt_drawContact {g : List (List Color)} {w h : Int} (c : Contact)
    (x y : Int) (hw : 1 ≤ w) (hh : 1 ≤ h) (hg : gridWF g w h)
    (hx1 : 0 ≤ x) (hx2 : x < w) (hy1 : 0 ≤ y) (hy2 : y < h) :
    pixAt (drawContact w h g c) x y
      = if (x, y) ∈ markSet c w h then colorFor c else pixAt g x y := by
  have hpx : 0 ≤ targetPx c w ∧ targetPx c w < w := clampPix_mem _ w hw
  have hpy : 0 ≤ targetPy c h ∧ targetPy c h < h := clampPix_mem _ h hh
  have hm1x := clampPix_mem (targetPx c w - 1) w hw
  have hm1y := clampPix_mem (targetPy c h - 1) h hh
  have hp1x := clampPix_mem (targetPx c w + 1) w hw
  have hp1y := clampPix_mem (targetPy c h + 1) h hh
  have wf1 := setPix_wf (g := g) (targetPx c w) (targetPy c h) (colorFor c) hg
    hpy.1 hpy.2
  have wf2 := setPix_wf (clampPix (targetPx c w - 1) w) (clampPix (targetPy c h - 1) h)
    (colorFor c) wf1 hm1y.1 hm1y.2
  unfold drawContact
  rw [pixAt_setPix (colorFor c) (clampPix (targetPx c w + 1) w)
      (clampPix (targetPy c h + 1) h) x y wf2 hp1x.1 hp1x.2 hp1y.1 hp1y.2
      hx1 hx2 hy1 hy2,
    pixAt_setPix (colorFor c) (clampPix (targetPx c w - 1) w)
      (clampPix (targetPy c h - 1) h) x y wf1 hm1x.1 hm1x.2 hm1y.1 hm1y.2
      hx1 hx2 hy1 hy2,
    pixAt_setPix (colorFor c) (targetPx c w) (targetPy c h) x y hg
      hpx.1 hpx.2 hpy.1 hpy.2 hx1 hx2 hy1 hy2]
  simp only [markSet, List.mem_cons, List.not_mem_nil, or_false, Prod.mk.injEq]
  split_ifs
  all_goals first
  | rfl
  | omega

theorem pixAt_foldl_draw {w h : Int} (hw : 1 ≤ w) (hh : 1 ≤ h) (x y : Int)
    (hx1 : 0 ≤ x) (hx2 : x < w) (hy1 : 0 ≤ y) (hy2 : y < h) :
    ∀ (cs : List Contact) (g : List (List Color)), gridWF g w h →
      pixAt (cs.foldl (drawContact w h) g) x y
        = cs.foldl (fun acc c => if (x, y) ∈ markSet c w h then colorFor c else acc)
            (pixAt g x y) := by
  intro cs
  induction cs with
  | nil => intro g _; rfl
  | cons c cs ih =>
    intro g hg
    rw [List.foldl_cons, List.foldl_cons,
      ih (drawContact w h g c) (drawContact_wf c hw hh hg),
      pixAt_drawContact c x y hw hh hg hx1 hx2 hy1 hy2]

theorem renderFrame_init_wf {w h : Int} :
    gridWF (List.replicate h.toNat (List.replicate w.toNat bgColor)) w h := by
  refine ⟨by simp, ?_⟩
  intro i hi
  rw [getD_replicate _ _ _ _ hi, List.length_replicate]

/-- Claim C8 as amended: with Python truncation toward zero (not rounding)
in the pixel mapping, a frame pixel shows the colour of the last contact in
the snapshot's order whose mark (target pixel or one of the two clamped
diagonal neighbours) covers it, and the background otherwise. -/
theorem frame_pixel_rule (cs : List Contact) (w h x y : Int) (hw : 1 ≤ w)
    (hh : 1 ≤ h) (hx1 : 0 ≤ x) (hx2 : x < w) (hy1 : 0 ≤ y) (hy2 : y < h) :
    pixAt (renderFrame cs w h) x y = specPixel cs w h (x, y) := by
  unfold renderFrame specPixel
  rw [pixAt_foldl_draw hw hh x y hx1 hx2 hy1 hy2 cs _ renderFrame_init_wf]
  congr 1
  unfold pixAt
  rw [getD_replicate _ _ _ _ (by omega), getD_replicate _ _ _ _ (by omega)]

/-- Witness for C8's amended statement: the halfway contact on a 3 by 3
frame; the pixel at the origin is painted by the truncated diagonal mark. -/
theorem frame_pixel_rule_witness :
    ((1 : Int) ≤ 3 ∧ (1 : Int) ≤ 3 ∧ (0 : Int) ≤ 0 ∧ (0 : Int) < 3) ∧
    pixAt (renderFrame [cHalfway] 3 3) 0 0 = specPixel [cHalfway] 3 3 (0, 0) :=
  ⟨⟨by norm_num, by norm_num, by norm_num, by norm_num⟩,
   frame_pixel_rule [cHalfway] 3 3 0 0 (by norm_num) (by norm_num) (by norm_num)
     (by norm_num) (by norm_num) (by norm_num)⟩

set_option maxHeartbeats 1600000 in
/-- Counterexample to claim C8 as stated: for the halfway contact
(`x = y = 0.75`) on a 3 by 3 frame, the claim's rounded target pixel is
`(2, 2)` while the code truncates to `(1, 1)`; consequently the code paints
the origin pixel (diagonal neighbour of `(1, 1)`) with the contact colour,
whereas under the claim's mapping the origin would stay background. -/
theorem frame_round_cex :
    targetPx cHalfway 3 = 1 ∧ targetPxClaim cHalfway 3 = 2 ∧
    pixAt (renderFrame [cHalfway] 3 3) 0 0 = colorFor cHalfway ∧
    specPixelClaim [cHalfway] 3 3 (0, 0) = bgColor ∧
    colorFor cHalfway ≠ bgColor := by
  refine ⟨?_, ?_, ?_, ?_, ?_⟩
  · norm_num [targetPx, clampPix, pyTrunc, cHalfway]
  · norm_num [targetPxClaim, clampPix, round_eq, cHalfway]
  · norm_num [pixAt, renderFrame, cHalfway, drawContact, setPix, targetPx,
      targetPy, clampPix, colorFor, pyTrunc, pmin, bgColor, List.replicate]
  · norm_num [specPixelClaim, markSetClaim, targetPxClaim, targetPyClaim,
      clampPix, round_eq, cHalfway, bgColor, Prod.ext_iff]
  · norm_num [colorFor, bgColor, pyTrunc, pmin, cHalfway, Prod.ext_iff]

theorem foldl_set_length {α : Type} :
    ∀ (l : List (Nat × α)) (h : List α),
      (l.foldl (fun acc rc => acc.set rc.1 rc.2) h).length = h.length := by
  intro l
  induction l with
  | nil => intro h; rfl
  | cons p l ih =>
    intro h
    rw [List.foldl_cons, ih, List.length_set]

theorem foldl_set_getD_untouched {α : Type} (d : α) :
    ∀ (l : List (Nat × α)) (h : List α) (r : Nat), (∀ p ∈ l, r ≠ p.1) →
      (l.foldl (fun acc rc => acc.set rc.1 rc.2) h).getD r d = h.getD r d := by
  intro l
  induction l with
  | nil => intro h r _; rfl
  | cons p l ih =>
    intro h r hne
    rw [List.foldl_cons, ih _ r (fun q hq => hne q (List.mem_cons_of_mem p hq)),
      getD_set_ne _ _ _ (Ne.symm (hne p (List.mem_cons_self p l)))]

theorem initEngine_inv (h0 : List Contact) (inputRefs : List Nat)
    (w hgt damp : ℚ) : heapPrefixInv h0 (initEngine h0 inputRefs w hgt damp) := by
  refine ⟨by simp [initEngine], ?_, ?_⟩
  · intro a ha
    simp only [initEngine] at ha
    obtain ⟨i, hi, rfl⟩ := List.mem_range'.1 ha
    omega
  · intro r hr
    simp only [initEngine]
    rw [List.getD_eq_getElem?_getD, List.getElem?_append_left hr,
      ← List.getD_eq_getElem?_getD]

theorem stepHeap_inv (hyp : ℚ → ℚ → ℚ) (dt : ℚ) (h0 : List Contact)
    (st : List Contact × EngineH) (hinv : heapPrefixInv h0 st) :
    heapPrefixInv h0 (stepHeap hyp dt st).1 := by
  obtain ⟨hlen, hrefs, hpre⟩ := hinv
  refine ⟨?_, ?_, ?_⟩
  · unfold stepHeap
    simp only
    rw [foldl_set_length]
    exact hlen
  · intro a ha
    exact hrefs a ha
  · intro r hr
    unfold stepHeap
    simp only
    rw [foldl_set_getD_untouched]
    · exact hpre r hr
    · intro p hp
      rcases p with ⟨a, c⟩
      have hmem := (List.of_mem_zip hp).1
      have := hrefs a hmem
      simp only
      omega

theorem iterateStepHeap_inv (hyp : ℚ → ℚ → ℚ) (dt : ℚ) (h0 : List Contact) :
    ∀ (k : Nat) (st : List Contact × EngineH), heapPrefixInv h0 st →
      heapPrefixInv h0 (iterateStepHeap hyp dt k st) := by
  intro k
  induction k with
  | zero => intro st h; exact h
  | succ m ih =>
    intro st h
    exact ih (stepHeap hyp dt st).1 (stepHeap_inv hyp dt h0 st h)

/-- Claim C9: constructing the engine copies every input contact into fresh
heap cells, and stepping writes only to the engine's own cells, so after any
number of steps every caller-held contact cell still holds its original
field values. -/
theorem caller_contacts_unchanged (hyp : ℚ → ℚ → ℚ) (dt : ℚ)
    (h0 : List Contact) (inputRefs : List Nat) (w hgt damp : ℚ) (k : Nat)
    (r : Nat) (hr : r < h0.length) :
    (iterateStepHeap hyp dt k (initEngine h0 inputRefs w hgt damp)).1.getD r default
      = h0.getD r default :=
  (iterateStepHeap_inv hyp dt h0 k (initEngine h0 inputRefs w hgt damp)
    (initEngine_inv h0 inputRefs w hgt damp)).2.2 r hr

/-- Witness for C9: the caller's single contact cell is unchanged after one
step of the aliasing run. -/
theorem caller_contacts_unchanged_witness :
    0 < ([cDrift] : List Contact).length ∧
    (iterateStepHeap hypAbsSum (1 / 50) 1 (initEngine [cDrift] [0] 1 1 (49 / 50))).1.getD 0 default
      = ([cDrift] : List Contact).getD 0 default :=
  ⟨by norm_num,
   caller_contacts_unchanged hypAbsSum (1 / 50) [cDrift] [0] 1 1 (49 / 50) 1 0
     (by norm_num)⟩

/-- Claim C1 fails on the code: the snapshot returned by `step` stores
`tuple(self._contacts)`, references to the live mutable `Contact` objects,
so a later `step` call changes what the earlier snapshot shows.  After the
first `step(0.02)` the snapshot's only contact reads `x = 0.50196`; after
the second step the same snapshot reads `x = 0.5038808`. -/
theorem snapshot_alias_cex :
    observe aliasRun1.1.1 aliasRun1.2 ≠ observe aliasRun2.1.1 aliasRun1.2 ∧
    (observe aliasRun1.1.1 aliasRun1.2).map Contact.x = [12549 / 25000] ∧
    (observe aliasRun2.1.1 aliasRun1.2).map Contact.x = [629851 / 1250000] := by
  refine ⟨?_, ?_, ?_⟩ <;>
    norm_num [observe, aliasRun1, aliasRun2, aliasStart, stepHeap, initEngine,
      cDrift, hypAbsSum, integrateAll, computeForces, pairIndices, applyBounds,
      pabs, integrate, List.range, List.range.loop, Contact.mk.injEq]

end ContactEvolution
